import Mathlib

/-!
Formal model of the nonprofit synthetic-data generator (`src/generate_data.py`,
class `NonprofitDataGenerator`).

Conventions of the embedding:
* Python floats are modelled as rationals (`ℚ`).
* Python `date` values are modelled either as abstract day ordinals (`ℕ`, where
  only the total order matters) or, where calendar structure matters
  (appeal scheduling), as explicit `(year, month, day)` triples compared
  lexicographically via a numeric key.
* Calls to the seeded pseudo-random source are modelled by explicit oracle
  arguments: a uniform draw `random.random()` becomes a rational `u` with
  `0 ≤ u < 1`, `random.choice`/`random.choices` of a list becomes an arbitrary
  natural number reduced modulo the list length, and `random.randint(0, m)`
  becomes an arbitrary natural number reduced modulo `m + 1`.  Theorems
  quantify over all oracles, hence over all behaviours of the random source.
-/

namespace NPO

/-! ### Calendar dates -/

/-- A calendar date `(year, month, day)` as carried by generated records. -/
structure Dt where
  y : ℕ
  m : ℕ
  d : ℕ
deriving DecidableEq

/-- Numeric key giving the lexicographic order of valid dates
(months ≤ 12 and days ≤ 31 are below the positional bases). -/
def Dt.key (a : Dt) : ℕ := a.y * 10000 + a.m * 100 + a.d

instance : LE Dt := ⟨fun a b => a.key ≤ b.key⟩

instance : LT Dt := ⟨fun a b => a.key < b.key⟩

instance (a b : Dt) : Decidable (a ≤ b) := inferInstanceAs (Decidable (a.key ≤ b.key))

instance (a b : Dt) : Decidable (a < b) := inferInstanceAs (Decidable (a.key < b.key))

/-! ### Constituent running aggregates (Transaction Engine state) -/

/-- The mutable running-aggregate fields of a constituent record
(`lifetime_giving`, `first_gift_date`, `last_gift_date`); identity fields are
irrelevant to the aggregate update and omitted.  Transaction dates here are
abstract day ordinals `ℕ`. -/
structure Constituent where
  lifetime_giving : ℚ
  first_gift_date : Option ℕ
  last_gift_date : Option ℕ
deriving DecidableEq

/-- A fresh constituent: `lifetime_giving = 0.0`, both gift dates `None`
(src/generate_data.py:155-157, 183-185). -/
def initConstituent : Constituent := ⟨0, none, none⟩

/-- Model of `update_donor_metrics` (src/generate_data.py:925-939):
`lifetime_giving += amount`; `first_gift_date` is set to `date` only when it is
`None` and otherwise left unchanged; `last_gift_date` becomes
`max(last_gift_date or date, date)`. -/
def update_donor_metrics (c : Constituent) (amount : ℚ) (date : ℕ) : Constituent :=
  { lifetime_giving := c.lifetime_giving + amount
    first_gift_date :=
      match c.first_gift_date with
      | none => some date
      | some d => some d
    last_gift_date := some (max (c.last_gift_date.getD date) date) }

/-- Apply `update_donor_metrics` once per transaction `(amount, date)` in
processing order, as the Transaction Engine does (src/generate_data.py:917). -/
def applyTransactions (c : Constituent) (txs : List (ℚ × ℕ)) : Constituent :=
  txs.foldl (fun a t => update_donor_metrics a t.1 t.2) c

/-- The constituent's `last_gift_date`, defaulting to 0 when unset. -/
def lastD (c : Constituent) : ℕ := c.last_gift_date.getD 0

/-- Checker for the claimed invariant: the constituent's `first_gift_date` is
less than or equal to every transaction date in `dates`. -/
def firstGiftLeAll (c : Constituent) (dates : List ℕ) : Bool :=
  dates.all (fun d => c.first_gift_date.getD d ≤ d)

/-- Checker for the dual invariant: every transaction date in `dates` is less
than or equal to the constituent's `last_gift_date`. -/
def lastGiftGeAll (c : Constituent) (dates : List ℕ) : Bool :=
  dates.all (fun d => d ≤ lastD c)

/-! ### Campaign-fund mappings (`generate_campaigns`) -/

/-- One row of the campaign-fund mapping table (src/generate_data.py:551-557). -/
structure CampaignFundRow where
  campaign_id : ℕ
  fund_id : ℕ
  weight : ℚ
  is_primary : Bool
deriving DecidableEq

/-- Model of the weight-list construction (src/generate_data.py:546-549):
`weights = [0.7, 0.2, 0.1][:num_funds]`, extended by `0.1/remaining` repeated
when shorter than `num_funds` (which cannot happen for `num_funds ≤ 3`). -/
def campaignFundWeights (nf : ℕ) : List ℚ :=
  let base := [(7 : ℚ)/10, 2/10, 1/10].take nf
  if base.length < nf then
    base ++ List.replicate (nf - base.length) ((1/10) / ((nf - base.length : ℕ) : ℚ))
  else base

/-- Model of the mapping-row loop (src/generate_data.py:551-557): row `i`
carries `weights[i]` and `is_primary = (i == 0)`. -/
def campaignFundRows (cid : ℕ) (selected : List ℕ) : List CampaignFundRow :=
  selected.enum.map (fun p =>
    ⟨cid, p.2, (campaignFundWeights selected.length).getD p.1 0, p.1 == 0⟩)

/-- Sum of the weights of a list of mapping rows. -/
def weightSum (rows : List CampaignFundRow) : ℚ := (rows.map (fun r => r.weight)).sum

/-- Number of rows flagged primary. -/
def primaryCount (rows : List CampaignFundRow) : ℕ :=
  (rows.filter (fun r => r.is_primary)).length

/-- Model of `num_funds = min(len(relevant_funds), random.randint(1, 3))`
(src/generate_data.py:536); the `randint(1, 3)` draw is `draw % 3 + 1`. -/
def numFundsChosen (relevantLen draw : ℕ) : ℕ := min relevantLen (draw % 3 + 1)

/-! ### Python numeric primitives -/

/-- Python `int(q)`: truncation toward zero. -/
def pyInt (q : ℚ) : ℤ := if 0 ≤ q then ⌊q⌋ else ⌈q⌉

/-- Python `round(q)`: round half to even (banker's rounding) to an integer. -/
def pyRound (q : ℚ) : ℤ :=
  let f := ⌊q⌋
  let r := q - (f : ℚ)
  if r < 1/2 then f
  else if 1/2 < r then f + 1
  else if f % 2 = 0 then f else f + 1

/-- Python `round(q, 2)`: round half to even at two decimal places. -/
def round2 (x : ℚ) : ℚ := (pyRound (x * 100) : ℚ) / 100

/-! ### Transaction Engine donor-draw count (`generate_transactions`) -/

/-- Model of `num_donors = int(len(potential_donors) * response_rate *
transaction_volume_multiplier)` (src/generate_data.py:809). -/
def numDonorsRaw (eligible : ℕ) (rate mult : ℚ) : ℤ :=
  pyInt ((eligible : ℚ) * rate * mult)

/-- Model of the draw count actually used: the above capped at the number of
eligible donors, `num_donors = min(num_donors, len(potential_donors))`
(src/generate_data.py:849). -/
def numDraws (eligible : ℕ) (rate mult : ℚ) : ℕ :=
  (min (numDonorsRaw eligible rate mult) (eligible : ℤ)).toNat

/-- Model of `random.choices(range(len(potential_donors)), ..., k)`
(src/generate_data.py:852-856): `k` independent draws with replacement; the
oracle `picks` supplies each draw, reduced into the eligible index range. -/
def selectDonors (picks : ℕ → ℕ) (eligible k : ℕ) : List ℕ :=
  (List.range k).map (fun t => picks t % eligible)

/-- The indices drawn for one appeal. -/
def appealDraws (picks : ℕ → ℕ) (eligible : ℕ) (rate mult : ℚ) : List ℕ :=
  selectDonors picks eligible (numDraws eligible rate mult)

/-! ### Cancelled-pledge payment generation (`generate_pledges`) -/

/-- The inclusive upper bound of the payment draw for a cancelled pledge,
`random.randint(0, max(1, installments - 1))` (src/generate_data.py:1110). -/
def cancelledDrawBound (installments : ℕ) : ℕ := max 1 (installments - 1)

/-- Model of the number of payment rows generated for a Cancelled pledge
(src/generate_data.py:1091-1110): the gate `random.random() < 0.3` (draw `u`)
admits payment generation; if admitted, the count is
`random.randint(0, max(1, installments - 1))` (oracle `draw`, taken modulo the
inclusive range size); otherwise zero rows. -/
def cancelledPaymentCount (u : ℚ) (installments draw : ℕ) : ℕ :=
  if u < 3/10 then draw % (cancelledDrawBound installments + 1) else 0

/-! ### Pledge amounts (`generate_pledges`) -/

/-- The per-frequency installment multiplier applied to the donor's average
gift (src/generate_data.py:1032-1037): Monthly 1.5, Quarterly 3, Annual 5. -/
def installmentMultiplier (freq : String) : ℚ :=
  if freq = "Monthly" then 3/2 else if freq = "Quarterly" then 3 else 5

/-- Model of `installment_amount = round(avg_gift * k, 2)`
(src/generate_data.py:1032-1037). -/
def pledgeInstallmentAmount (avg : ℚ) (freq : String) : ℚ :=
  round2 (avg * installmentMultiplier freq)

/-- Model of `total_amount = round(installment_amount * installments, 2)`
(src/generate_data.py:1039). -/
def pledgeTotalAmount (installment_amount : ℚ) (installments : ℕ) : ℚ :=
  round2 (installment_amount * (installments : ℚ))

/-! ### Effective response rate (`generate_transactions`) -/

/-- The declared appeal-channel response-rate table
(src/generate_data.py:48-57). -/
def appealResponseRateTable : List (String × ℚ) :=
  [("Direct Mail", 15/100), ("Email", 8/100), ("Event", 25/100),
   ("Giving Tuesday", 20/100), ("Phone", 12/100), ("Social Media", 5/100),
   ("Board Giving", 80/100), ("Peer to Peer", 15/100)]

/-- Model of `giving_patterns['appeal_response_rate'].get(appeal['type'], 0.10)`
(src/generate_data.py:787-789). -/
def baseRate (channel : String) : ℚ :=
  (appealResponseRateTable.lookup channel).getD (10/100)

/-- Model of the seasonal response-rate boost (src/generate_data.py:792-797):
December-anchored appeals are scaled by `1 + december_weight`, Giving-Tuesday
ones by `1 + giving_tuesday_weight`, others are unscaled. -/
def effectiveResponseRate (seasonal channel : String) (dw gw : ℚ) : ℚ :=
  if seasonal = "December" then baseRate channel * (1 + dw)
  else if seasonal = "Giving Tuesday" then baseRate channel * (1 + gw)
  else baseRate channel

/-- Spec-side restatement of the base-rate table (spec section 8 / section 4.4
step 1): the declared per-channel rates with default 0.10 for a channel
missing from the table.  Written from the spec's words, for comparison with
`baseRate` above. -/
def specBaseRate (channel : String) : ℚ :=
  if channel = "Direct Mail" then 15/100
  else if channel = "Email" then 8/100
  else if channel = "Event" then 25/100
  else if channel = "Giving Tuesday" then 20/100
  else if channel = "Phone" then 12/100
  else if channel = "Social Media" then 5/100
  else if channel = "Board Giving" then 80/100
  else if channel = "Peer to Peer" then 15/100
  else 10/100

/-- Spec-side restatement of the claimed effective response rate: base rate of
the channel times `(1 + december_weight)` for December-anchored appeals, times
`(1 + giving_tuesday_weight)` for Giving-Tuesday ones, base rate otherwise. -/
def specEffectiveResponseRate (seasonal channel : String) (dw gw : ℚ) : ℚ :=
  if seasonal = "December" then specBaseRate channel * (1 + dw)
  else if seasonal = "Giving Tuesday" then specBaseRate channel * (1 + gw)
  else specBaseRate channel

/-! ### Appeal scheduling (`generate_appeals`) -/

/-- The fields of a campaign relevant to appeal scheduling. -/
structure Campaign where
  ctype : String
  startDate : Dt
  endDate : Dt
deriving DecidableEq

/-- Model of `includes_december` (src/generate_data.py:588-589). -/
def includesDecember (c : Campaign) : Bool :=
  (decide (c.startDate.m ≤ 12) && decide (12 ≤ c.endDate.m)) ||
  (decide (c.endDate.m < c.startDate.m) && decide (c.startDate.y < c.endDate.y))

/-- Model of `includes_november` (src/generate_data.py:592-593). -/
def includesNovember (c : Campaign) : Bool :=
  (decide (c.startDate.m ≤ 11) && decide (11 ≤ c.endDate.m)) ||
  (decide (c.endDate.m < c.startDate.m) && decide (c.startDate.y < c.endDate.y))

/-- Model of `year = max(min(campaign['end_date'].year, 2024), 2021)`
(src/generate_data.py:597, 622). -/
def anchorYear (c : Campaign) : ℕ := max (min c.endDate.y 2024) 2021

/-- December 1 of a year. -/
def decemberStart (y : ℕ) : Dt := ⟨y, 12, 1⟩

/-- December 31 of a year. -/
def decemberEnd (y : ℕ) : Dt := ⟨y, 12, 31⟩

/-- The hard-coded Giving Tuesday date, November 30 of a year
(src/generate_data.py:623). -/
def givingTuesdayDate (y : ℕ) : Dt := ⟨y, 11, 30⟩

/-- Model of the December-appeal injection condition
(src/generate_data.py:596-605): the month heuristic passes, `Direct Mail` is in
the campaign's appeal-type pool, and the anchored December window intersects
the campaign window. -/
def decemberInjected (pool : List String) (c : Campaign) : Bool :=
  includesDecember c && pool.contains "Direct Mail" &&
    (decide (decemberStart (anchorYear c) ≤ c.endDate) &&
     decide (c.startDate ≤ decemberEnd (anchorYear c)))

/-- The campaign types eligible for a Giving Tuesday appeal
(src/generate_data.py:620). -/
def gtTypes : List String := ["Annual", "Special", "Program"]

/-- Model of the Giving-Tuesday-appeal injection condition
(src/generate_data.py:619-629): the month heuristic passes, the campaign type
is Annual/Special/Program, and November 30 of the anchor year lies inside the
campaign window. -/
def gtInjected (c : Campaign) : Bool :=
  includesNovember c && gtTypes.contains c.ctype &&
    (decide (givingTuesdayDate (anchorYear c) ≤ c.endDate) &&
     decide (c.startDate ≤ givingTuesdayDate (anchorYear c)))

/-- The injected Giving Tuesday appeal's window (src/generate_data.py:636-637):
`Nov 30 - 7 days = Nov 23` through `Nov 30 + 1 day = Dec 1` of the anchor
year. -/
def gtAppealWindow (c : Campaign) : Dt × Dt :=
  (⟨anchorYear c, 11, 23⟩, ⟨anchorYear c, 12, 1⟩)

/-- Spec-side notion used by the claim: the campaign window genuinely overlaps
the month of November, i.e. it intersects `[Nov 1, Nov 30]` of some year. -/
def overlapsNovember (c : Campaign) : Prop :=
  ∃ yr : ℕ, c.startDate ≤ givingTuesdayDate yr ∧ (⟨yr, 11, 1⟩ : Dt) ≤ c.endDate

/-! ### Pledge status (`generate_pledges`) and the run's wall-clock input -/

/-- Model of the pledge-status draw (src/generate_data.py:1070-1075): the code
compares the computed pledge end date with `datetime.now().date()`; pledges
ending after "now" are Active (0.9) or Cancelled (0.1), pledges already past
their end are Completed (0.85) or Cancelled (0.15).  Dates are day ordinals;
`u` is the uniform draw behind the weighted two-way choice. -/
def pledgeStatus (endDate now : ℕ) (u : ℚ) : String :=
  if now < endDate then (if u < 9/10 then "Active" else "Cancelled")
  else (if u < 85/100 then "Completed" else "Cancelled")

/-- Model of the donor-segment frequency draw `np.random.choice(['One-time',
'Occasional', 'Regular', 'Loyal'], p=[0.4, 0.3, 0.2, 0.1])`
(src/generate_data.py:210-213), as the inverse-CDF of the listed categories at
a uniform draw `u`.  This draw is taken from numpy's global RNG, which the
program never seeds (src/generate_data.py:9-10 seed only `random` and
`Faker`), so `u` is NOT determined by the program's seed. -/
def segmentFrequency (u : ℚ) : String :=
  if u < 4/10 then "One-time"
  else if u < 7/10 then "Occasional"
  else if u < 9/10 then "Regular"
  else "Loyal"

/-- Model of the geographic state draw `np.random.choice(list(
state_weights.keys()), p=list(state_weights.values()))` with the default
weights (src/generate_data.py:71-76, 127-130), as the inverse-CDF of the
listed states at a uniform draw `u`.  Like all `np.random` draws in the
program, it comes from numpy's never-seeded global RNG. -/
def constituentState (u : ℚ) : String :=
  if u < 25/100 then "CA"
  else if u < 45/100 then "NY"
  else if u < 60/100 then "IL"
  else if u < 68/100 then "TX"
  else if u < 76/100 then "FL"
  else if u < 84/100 then "MA"
  else if u < 92/100 then "WA"
  else "OR"

/-- The frequency-tier selection-weight multiplier applied to a donor's
weight by the Transaction Engine (src/generate_data.py:830-836), default 1.0
for an unknown tier. -/
def frequencyWeight (freq : String) : ℚ :=
  if freq = "One-time" then 7/10
  else if freq = "Occasional" then 1
  else if freq = "Regular" then 2
  else if freq = "Loyal" then 3
  else 1

/-- The uniform draws behind the program's `np.random.choice` calls
(constituent state, src/generate_data.py:127; donor-segment frequency,
src/generate_data.py:210).  These come from numpy's global RNG, which the
program never seeds — src/generate_data.py:9-10 seed only `Faker` and the
stdlib `random` module — so these values are determined by OS entropy, not by
the seed or the configuration, and can differ between two runs at the same
seed. -/
structure NumpyDraws where
  stateDraw : ℚ
  frequencyDraw : ℚ
deriving DecidableEq

/-- Two concrete numpy-RNG draw records as two runs at the same seed can
observe them (numpy's RNG being unseeded). -/
def npDrawsA : NumpyDraws := ⟨0, 0⟩

/-- A second numpy-RNG draw record differing only in the frequency draw. -/
def npDrawsB : NumpyDraws := ⟨0, 1/2⟩

/-- The inputs of one composite evaluation of the modelled generation
functions that ARE fixed by the seed and the configuration: configuration
weights, and the pseudo-random draws of the stdlib `random` source, which
src/generate_data.py:10 seeds.  The wall-clock date and the numpy-RNG draws
are deliberately not part of this record. -/
structure RunInput where
  seasonal : String
  channel : String
  decemberWeight : ℚ
  givingTuesdayWeight : ℚ
  volumeMultiplier : ℚ
  eligible : ℕ
  avgGift : ℚ
  pledgeFrequency : String
  installments : ℕ
  pledgeEndDate : ℕ
  statusDraw : ℚ
  gateDraw : ℚ
  paymentDraw : ℕ
deriving DecidableEq

/-- One composite record of generated values, assembled from the modelled
generation functions. -/
structure RunOutput where
  state : String
  donorFrequency : String
  donorWeight : ℚ
  responseRate : ℚ
  drawCount : ℕ
  installmentAmount : ℚ
  totalAmount : ℚ
  status : String
  cancelledPayments : ℕ
deriving DecidableEq

/-- A run of the modelled generator on its inputs: the seed-determined stdlib
draws and configuration in `inp`, the numpy-RNG draws `np` that the program
leaves unseeded (src/generate_data.py:127, 210), and the wall-clock date
`now` that `generate_pledges` reads via `datetime.now()`
(src/generate_data.py:975). -/
def modelRun (inp : RunInput) (np : NumpyDraws) (now : ℕ) : RunOutput :=
  let rate := effectiveResponseRate inp.seasonal inp.channel
      inp.decemberWeight inp.givingTuesdayWeight
  let inst := pledgeInstallmentAmount inp.avgGift inp.pledgeFrequency
  let freq := segmentFrequency np.frequencyDraw
  { state := constituentState np.stateDraw
    donorFrequency := freq
    donorWeight := frequencyWeight freq
    responseRate := rate
    drawCount := numDraws inp.eligible rate inp.volumeMultiplier
    installmentAmount := inst
    totalAmount := pledgeTotalAmount inst inp.installments
    status := pledgeStatus inp.pledgeEndDate now inp.statusDraw
    cancelledPayments := cancelledPaymentCount inp.gateDraw inp.installments inp.paymentDraw }

/-- A concrete Annual campaign as `generate_campaigns` can produce (Annual
campaigns run exactly 365 days, src/generate_data.py:509-512): starting
December 1, 2021 and ending December 1, 2022.  Its window contains all of
November 2022. -/
def novemberMissCampaign : Campaign := ⟨"Annual", ⟨2021, 12, 1⟩, ⟨2022, 12, 1⟩⟩

/-- A concrete Annual campaign whose window contains November 30 of its own
end year, so the Giving Tuesday appeal is injected. -/
def gtHitCampaign : Campaign := ⟨"Annual", ⟨2021, 1, 1⟩, ⟨2021, 12, 31⟩⟩

/-- A concrete Special campaign lying entirely after December 31, 2024
(the generator's date range may extend past 2024, see `main`,
src/generate_data.py:1292); its window contains all of November and December
2025. -/
def postRangeCampaign : Campaign := ⟨"Special", ⟨2025, 10, 1⟩, ⟨2026, 3, 29⟩⟩

/-- A concrete run input used to exhibit the wall-clock dependence of the
generator: a pledge whose computed end date is day 100. -/
def sampleRunInput : RunInput :=
  { seasonal := "Regular", channel := "Direct Mail", decemberWeight := 3/10,
    givingTuesdayWeight := 1/10, volumeMultiplier := 1, eligible := 100,
    avgGift := 50, pledgeFrequency := "Monthly", installments := 12,
    pledgeEndDate := 100, statusDraw := 0, gateDraw := 1/2, paymentDraw := 0 }

/-! ### Household pairing (`generate_households`)

The pairing loop (src/generate_data.py:235-430) walks the individual
constituents in order (indices `0..n-1`), maintaining the set of
already-assigned indices, and emits one household (a nonempty list of member
indices, primary first) per iteration that is not skipped.  Naming draws
(surname policy, titles) consume randomness but do not affect membership and
are not modelled; each probabilistic decision that affects membership is an
oracle field. -/

/-- The membership-relevant random decisions of the pairing loop, indexed by
the position `i` of the current constituent. -/
structure HHOracle where
  pair : ℕ → Bool
  pick : ℕ → ℕ
  sameSex : ℕ → Bool
  pick2 : ℕ → ℕ
  extras : ℕ → ℕ

/-- State of the pairing loop: assigned indices, and the list of households
emitted so far (each a list of member indices, primary member first). -/
structure HHState where
  assigned : Finset ℕ
  households : List (List ℕ)

/-- Model of `random.choice(l)`: the oracle value reduced into the list. -/
def chooseFrom (l : List ℕ) (k : ℕ) : ℕ := l.getD (k % l.length) 0

/-- The unassigned indices in `[a, b)` in order: the `potential_partners`
construction (src/generate_data.py:252-255). -/
def window (a b : ℕ) (A : Finset ℕ) : List ℕ :=
  (List.range' a (b - a)).filter (fun j => decide (j ∉ A))

/-- The unassigned same-gender indices in `[a, b)`: the `same_gender_partners`
re-search (src/generate_data.py:267-270). -/
def windowGender (a b : ℕ) (A : Finset ℕ) (g : ℕ → ℕ) (tg : ℕ) : List ℕ :=
  (List.range' a (b - a)).filter (fun j => decide (j ∉ A) && decide (g j = tg))

/-- Model of the additional-member while loop (src/generate_data.py:352-372):
starting at index `idx` with `need` members still wanted and `fuel = n - idx`
(so `fuel = 0` exactly when `idx ≥ n`), skip assigned indices and collect
unassigned ones, marking each collected index assigned immediately. -/
def collectExtras : ℕ → ℕ → ℕ → Finset ℕ → List ℕ × Finset ℕ
  | _, _, 0, A => ([], A)
  | _, 0, _ + 1, A => ([], A)
  | idx, need + 1, fuel + 1, A =>
    if idx ∈ A then collectExtras (idx + 1) (need + 1) fuel A
    else
      let r := collectExtras (idx + 1) need fuel (insert idx A)
      (idx :: r.1, r.2)

/-- Emit a single-person household for index `i`
(src/generate_data.py:376-408). -/
def singleHH (i : ℕ) (s : HHState) : HHState :=
  ⟨insert i s.assigned, s.households ++ [[i]]⟩

/-- Partner choice (src/generate_data.py:258-274): pick from the 9-ahead
window; if a same-sex pairing is requested but the pick has a different
gender, re-search the 19-ahead window for a same-gender candidate, keeping the
original pick when none exists. -/
def choosePartner (o : HHOracle) (g : ℕ → ℕ) (n i : ℕ) (A : Finset ℕ)
    (pot : List ℕ) : ℕ :=
  let p0 := chooseFrom pot (o.pick i)
  if o.sameSex i && decide (g i ≠ g p0) then
    let sg := windowGender (i + 1) (min (i + 20) n) A g (g i)
    if sg.isEmpty then p0 else chooseFrom sg (o.pick2 i)
  else p0

/-- The couple branch (src/generate_data.py:257-374): assign `i` and the chosen
partner, then collect 0-3 additional members starting after
`max(i, partner_idx)`, and emit the household. -/
def pairHH (o : HHOracle) (g : ℕ → ℕ) (n i : ℕ) (s : HHState)
    (pot : List ℕ) : HHState :=
  let p := choosePartner o g n i s.assigned pot
  let A1 := insert p (insert i s.assigned)
  let start := max i p + 1
  let r := collectExtras start (o.extras i % 4) (n - start) A1
  ⟨r.2, s.households ++ [i :: p :: r.1]⟩

/-- One iteration of the pairing loop at index `i`
(src/generate_data.py:243-408): skip if already assigned; with the 0.75 draw
try to pair (falling back to a single household when the 9-ahead window is
exhausted); otherwise emit a single household. -/
def hhStep (o : HHOracle) (g : ℕ → ℕ) (n : ℕ) (s : HHState) (i : ℕ) : HHState :=
  if i ∈ s.assigned then s
  else if o.pair i then
    let pot := window (i + 1) (min (i + 10) n) s.assigned
    if pot.isEmpty then singleHH i s else pairHH o g n i s pot
  else singleHH i s

/-- The main pairing loop over all indices. -/
def hhLoop (o : HHOracle) (g : ℕ → ℕ) (n : ℕ) : HHState :=
  (List.range n).foldl (hhStep o g n) ⟨∅, []⟩

/-- One step of the final defensive sweep (src/generate_data.py:411-427):
single-person household for any index never assigned. -/
def hhSweepStep (s : HHState) (j : ℕ) : HHState :=
  if j ∈ s.assigned then s else singleHH j s

/-- Model of `generate_households` membership output on `n` individual
constituents with genders `g`: the pairing loop followed by the defensive
sweep. -/
def generateHouseholds (o : HHOracle) (g : ℕ → ℕ) (n : ℕ) : HHState :=
  (List.range n).foldl hhSweepStep (hhLoop o g n)

/-- Invariant of the household generation loop on `n` individuals: the emitted
membership rows are pairwise distinct, they are exactly the assigned indices,
no household is empty, and all members are valid indices. -/
def HHInv (n : ℕ) (s : HHState) : Prop :=
  s.households.flatten.Nodup ∧
  s.households.flatten.toFinset = s.assigned ∧
  [] ∉ s.households ∧
  ∀ x ∈ s.households.flatten, x < n

/-! ## Theorems -/

theorem applyTransactions_cons (c : Constituent) (t : ℚ × ℕ) (ts : List (ℚ × ℕ)) :
    applyTransactions c (t :: ts) = applyTransactions (update_donor_metrics c t.1 t.2) ts := rfl

theorem first_gift_stable (txs : List (ℚ × ℕ)) :
    ∀ (c : Constituent) (d : ℕ), c.first_gift_date = some d →
      (applyTransactions c txs).first_gift_date = some d := by
  induction txs with
  | nil => intro c d h; exact h
  | cons t ts ih =>
    intro c d h
    rw [applyTransactions_cons]
    exact ih _ d (by simp [update_donor_metrics, h])

theorem lastD_update_ge (c : Constituent) (a : ℚ) (d : ℕ) :
    lastD c ≤ lastD (update_donor_metrics c a d) := by
  cases h : c.last_gift_date with
  | none => simp [lastD, update_donor_metrics, h]
  | some l => simp [lastD, update_donor_metrics, h]

theorem lastD_update_ge_date (c : Constituent) (a : ℚ) (d : ℕ) :
    d ≤ lastD (update_donor_metrics c a d) := by
  cases h : c.last_gift_date with
  | none => simp [lastD, update_donor_metrics, h]
  | some l => simp [lastD, update_donor_metrics, h]

theorem lastD_apply_mono (txs : List (ℚ × ℕ)) :
    ∀ c : Constituent, lastD c ≤ lastD (applyTransactions c txs) := by
  induction txs with
  | nil => intro c; exact le_refl _
  | cons t ts ih =>
    intro c
    rw [applyTransactions_cons]
    exact le_trans (lastD_update_ge c t.1 t.2) (ih _)

theorem lastD_apply_ge (txs : List (ℚ × ℕ)) :
    ∀ c : Constituent, ∀ t ∈ txs, t.2 ≤ lastD (applyTransactions c txs) := by
  induction txs with
  | nil => intro c t ht; cases ht
  | cons t0 ts ih =>
    intro c t ht
    rw [applyTransactions_cons]
    rcases List.mem_cons.mp ht with rfl | h2
    · exact le_trans (lastD_update_ge_date c t.1 t.2) (lastD_apply_mono ts _)
    · exact ih _ t h2

/-- C1 (counterexample): applying the Transaction Engine's
`update_donor_metrics` to a transaction of date 10 and then one of date 5
leaves `first_gift_date` at 10, which exceeds the transaction date 5, so the
claimed invariant `first_gift_date ≤ every transaction date` fails; moreover
the update applied to an already-set `first_gift_date` does not take the
minimum with the new date. -/
theorem first_gift_min_counterexample :
    firstGiftLeAll (applyTransactions initConstituent [(20, 10), (30, 5)]) [10, 5] = false ∧
    (update_donor_metrics ⟨20, some 10, some 10⟩ 30 5).first_gift_date ≠ some (min 10 5) := by
  constructor
  · decide
  · decide

/-- C1 (amended): for any nonempty transaction sequence applied in processing
order from a fresh constituent, `first_gift_date` equals the date of the
first-processed transaction (the update sets it only when unset, never taking
a minimum), and `last_gift_date` is an upper bound of all transaction dates
(the update takes a maximum). -/
theorem aggregate_update_bounds (a : ℚ) (d : ℕ) (ts : List (ℚ × ℕ)) :
    (applyTransactions initConstituent ((a, d) :: ts)).first_gift_date = some d ∧
    lastGiftGeAll (applyTransactions initConstituent ((a, d) :: ts))
      (((a, d) :: ts).map Prod.snd) = true := by
  constructor
  · rw [applyTransactions_cons]
    exact first_gift_stable ts _ d (by simp [update_donor_metrics, initConstituent])
  · rw [lastGiftGeAll, List.all_eq_true]
    intro x hx
    rw [List.mem_map] at hx
    obtain ⟨t, ht, rfl⟩ := hx
    simpa using lastD_apply_ge ((a, d) :: ts) initConstituent t ht

/-- C2 (counterexample): a campaign mapped to a single fund (which
`generate_campaigns` produces whenever `min(len(relevant_funds),
random.randint(1, 3)) = 1`) gets the weight list `[0.7]`, whose sum is 0.7,
not 1.0 — far outside any rounding tolerance. -/
theorem fund_weight_sum_counterexample :
    weightSum (campaignFundRows 1 [1]) = 7/10 ∧
    ¬ |weightSum (campaignFundRows 1 [1]) - 1| < 1/100 ∧
    numFundsChosen 2 0 = 1 := by
  have hw : weightSum (campaignFundRows 1 [1]) = 7/10 := by
    norm_num [weightSum, campaignFundRows, campaignFundWeights, List.enum_cons,
      List.enumFrom]
  refine ⟨hw, ?_, by decide⟩
  rw [hw]
  rw [show |(7:ℚ)/10 - 1| = 3/10 by rw [abs_sub_comm, abs_of_nonneg] <;> norm_num]
  norm_num

/-- C2 (amended): every campaign-fund mapping produced by `generate_campaigns`
(1 to 3 selected funds) has exactly one row flagged primary, and its weights
sum to 0.7, 0.9 or 1.0 according to whether one, two or three funds were
selected — the sum is 1.0 exactly in the three-fund case. -/
theorem fund_rows_primary_and_sum (cid f1 : ℕ) (rest : List ℕ)
    (h3 : (f1 :: rest).length ≤ 3) :
    primaryCount (campaignFundRows cid (f1 :: rest)) = 1 ∧
    weightSum (campaignFundRows cid (f1 :: rest)) =
      if rest.length = 0 then 7/10 else if rest.length = 1 then 9/10 else 1 := by
  rcases rest with _ | ⟨f2, _ | ⟨f3, _ | ⟨f4, r⟩⟩⟩
  · refine ⟨by simp [primaryCount, campaignFundRows, List.enum_cons, List.enumFrom], ?_⟩
    norm_num [weightSum, campaignFundRows, List.enum_cons, List.enumFrom,
      campaignFundWeights]
  · refine ⟨by simp [primaryCount, campaignFundRows, List.enum_cons, List.enumFrom], ?_⟩
    norm_num [weightSum, campaignFundRows, List.enum_cons, List.enumFrom,
      campaignFundWeights]
  · refine ⟨by simp [primaryCount, campaignFundRows, List.enum_cons, List.enumFrom], ?_⟩
    norm_num [weightSum, campaignFundRows, List.enum_cons, List.enumFrom,
      campaignFundWeights]
  · simp at h3

/-- Witness for `fund_rows_primary_and_sum` at the concrete two-fund mapping
`[2, 8]` (an Annual campaign's fund pool). -/
theorem fund_rows_primary_and_sum_witness :
    primaryCount (campaignFundRows 1 [2, 8]) = 1 ∧
    weightSum (campaignFundRows 1 [2, 8]) = 9/10 := by
  have h := fund_rows_primary_and_sum 1 2 [8] (by decide)
  simpa using h

/-- C4 (counterexample): for 10 eligible donors, response rate 0.15 and
volume multiplier 1, the code draws `int(1.5) = 1` donor whereas
`round(1.5) = 2`; and for response rate 0.8 with multiplier 2 the code draws
`min(int(16), 10) = 10` donors — capped at the eligible count — whereas the
claimed uncapped `round(16) = 16`. -/
theorem draw_count_counterexample :
    numDraws 10 (3/20) 1 = 1 ∧ pyRound ((10 : ℚ) * (3/20) * 1) = 2 ∧
    numDraws 10 (4/5) 2 = 10 ∧ pyRound ((10 : ℚ) * (4/5) * 2) = 16 := by
  refine ⟨?_, ?_, ?_, ?_⟩ <;>
    (norm_num [numDraws, numDonorsRaw, pyInt, pyRound]; try decide)

/-- C4 (amended): the number of donor draws for an appeal equals
`min(int(eligible × rate × mult), eligible)` — `int` truncates toward zero
and the count is capped at the eligible count — so it never exceeds the
number of eligible donors; the draws are made with replacement (there is an
oracle under which the same donor index is drawn repeatedly, nothing is
deduplicated). -/
theorem draw_count_capped_trunc (picks : ℕ → ℕ) (e : ℕ) (r m : ℚ) :
    (appealDraws picks e r m).length = (min (numDonorsRaw e r m) (e : ℤ)).toNat ∧
    (appealDraws picks e r m).length ≤ e ∧
    ∃ dup : ℕ → ℕ, ¬ (appealDraws dup 5 1 1).Nodup := by
  have h5 : appealDraws (fun _ => 0) 5 1 1 = [0, 0, 0, 0, 0] := by
    norm_num [appealDraws, selectDonors, numDraws, numDonorsRaw, pyInt]
    rfl
  refine ⟨?_, ?_, ⟨fun _ => 0, by rw [h5]; decide⟩⟩
  · simp [appealDraws, selectDonors, numDraws]
  · simp only [appealDraws, selectDonors, numDraws, List.length_map, List.length_range]
    exact Int.toNat_le.mpr (min_le_right _ _)

/-- C5 (counterexample): a Cancelled pledge with a single installment
(`installments = 1`, as Annual pledges can draw) admitted by the 0.3 gate can
generate `randint(0, max(1, 0)) = 1` payment row — all of its installments,
not at most `installments - 1 = 0`. -/
theorem cancelled_payments_counterexample :
    cancelledPaymentCount 0 1 1 = 1 ∧ ¬ cancelledPaymentCount 0 1 1 ≤ 1 - 1 := by
  have h : cancelledPaymentCount 0 1 1 = 1 := by
    norm_num [cancelledPaymentCount, cancelledDrawBound]
  rw [h]
  norm_num

/-- C5 (amended): for a Cancelled pledge with at least two installments the
payment count is uniform over `0 .. installments - 1` and never reaches all
installments; the pledge generates zero rows whenever the gate draw is at
least 0.3, i.e. on the 70% portion of the unit interval (for a single
installment the bound `max(1, installments - 1)` instead allows the lone
installment to be generated). -/
theorem cancelled_payments_bound (u : ℚ) (installments draw : ℕ)
    (h2 : 2 ≤ installments) :
    cancelledPaymentCount u installments draw < installments ∧
    cancelledPaymentCount u installments draw ≤ installments - 1 ∧
    (3/10 ≤ u → cancelledPaymentCount u installments draw = 0) ∧
    (u < 3/10 → cancelledPaymentCount u installments draw = draw % installments) := by
  have hb : cancelledDrawBound installments + 1 = installments := by
    unfold cancelledDrawBound; omega
  unfold cancelledPaymentCount
  rw [hb]
  split
  next h =>
    have hlt : draw % installments < installments := Nat.mod_lt _ (by omega)
    exact ⟨hlt, by omega, fun hu => absurd h (not_lt.mpr hu), fun _ => rfl⟩
  next h =>
    exact ⟨by omega, by omega, fun _ => rfl, fun hu => absurd hu h⟩

/-- Witness for `cancelled_payments_bound` at a 12-installment pledge with
gate draw 0.5 (payments skipped). -/
theorem cancelled_payments_bound_witness :
    cancelledPaymentCount (1/2) 12 5 = 0 ∧ cancelledPaymentCount (1/2) 12 5 < 12 := by
  have h := cancelled_payments_bound (1/2) 12 5 (by norm_num)
  exact ⟨h.2.2.1 (by norm_num), h.1⟩

theorem pyRound_intCast (z : ℤ) : pyRound (z : ℚ) = z := by
  unfold pyRound
  rw [Int.floor_intCast]
  norm_num

theorem round2_den (x : ℚ) : round2 x = (pyRound (x * 100) : ℚ) / 100 := rfl

theorem round2_fix (z : ℤ) (k : ℕ) :
    round2 (((z : ℚ) / 100) * (k : ℚ)) = ((z : ℚ) / 100) * (k : ℚ) := by
  rw [round2_den]
  have h : ((z : ℚ) / 100) * (k : ℚ) * 100 = ((z * (k : ℤ) : ℤ) : ℚ) := by
    push_cast
    ring
  rw [h, pyRound_intCast]
  push_cast
  ring

/-- C9: every generated pledge satisfies
`abs(total_amount - installment_amount * installments) < 0.01`: since
`installment_amount` is rounded to two decimals, the product
`installment_amount * installments` is already an exact multiple of 0.01, so
`total_amount = round(installment_amount * installments, 2)` equals it
exactly and the difference is 0. -/
theorem pledge_total_consistent (avg : ℚ) (freq : String) (installments : ℕ) :
    |pledgeTotalAmount (pledgeInstallmentAmount avg freq) installments -
      pledgeInstallmentAmount avg freq * (installments : ℚ)| < 1/100 := by
  have h1 : pledgeInstallmentAmount avg freq =
      ((pyRound (avg * installmentMultiplier freq * 100) : ℚ)) / 100 := rfl
  rw [pledgeTotalAmount, h1, round2_fix, sub_self, abs_zero]
  norm_num

theorem baseRate_eq_specBaseRate (channel : String) : baseRate channel = specBaseRate channel := by
  unfold baseRate specBaseRate appealResponseRateTable
  simp only [List.lookup]
  repeat' split <;> simp_all

/-- C8: the effective response rate used by the Transaction Engine
(src/generate_data.py:787-797) agrees with the spec's formula for every
seasonal flag, channel and weight configuration: channel base rate (default
0.10 for a channel absent from the table, e.g. "Email Campaign") scaled by
`(1 + december_weight)` for December-anchored appeals and by
`(1 + giving_tuesday_weight)` for Giving-Tuesday-anchored ones, unscaled
otherwise. -/
theorem effective_response_rate_spec (seasonal channel : String) (dw gw : ℚ) :
    effectiveResponseRate seasonal channel dw gw =
      specEffectiveResponseRate seasonal channel dw gw := by
  unfold effectiveResponseRate specEffectiveResponseRate
  rw [baseRate_eq_specBaseRate]

/-- C3 (counterexample): two complete runs at the same seed and the same
configuration need not produce identical output tables, for two independent
reasons exhibited here with every seed-determined input held fixed.
First, the pledge status depends on the wall-clock date read by
`datetime.now()` (src/generate_data.py:975): a run before the pledge's
computed end date reports Active, a run after it reports Completed.
Second, the constituent-state, gender and donor-segment draws use
`np.random.choice` (src/generate_data.py:127, 161, 210-231), backed by
numpy's global RNG, which the program never seeds
(src/generate_data.py:9-10 seed only `random` and `Faker`): at the same
seed, configuration and wall-clock date, two runs observing different
numpy draws assign a different frequency segment, hence a different
Transaction Engine selection weight. -/
theorem determinism_counterexample :
    (modelRun sampleRunInput npDrawsA 50).status = "Active" ∧
    (modelRun sampleRunInput npDrawsA 200).status = "Completed" ∧
    modelRun sampleRunInput npDrawsA 50 ≠ modelRun sampleRunInput npDrawsA 200 ∧
    (modelRun sampleRunInput npDrawsA 50).donorFrequency = "One-time" ∧
    (modelRun sampleRunInput npDrawsB 50).donorFrequency = "Occasional" ∧
    (modelRun sampleRunInput npDrawsA 50).donorWeight = 7/10 ∧
    (modelRun sampleRunInput npDrawsB 50).donorWeight = 1 ∧
    modelRun sampleRunInput npDrawsA 50 ≠ modelRun sampleRunInput npDrawsB 50 := by
  have h1 : (modelRun sampleRunInput npDrawsA 50).status = "Active" := by
    norm_num [modelRun, pledgeStatus, sampleRunInput, npDrawsA]
  have h2 : (modelRun sampleRunInput npDrawsA 200).status = "Completed" := by
    norm_num [modelRun, pledgeStatus, sampleRunInput, npDrawsA]
  have h3 : (modelRun sampleRunInput npDrawsA 50).donorFrequency = "One-time" := by
    norm_num [modelRun, segmentFrequency, sampleRunInput, npDrawsA]
  have h4 : (modelRun sampleRunInput npDrawsB 50).donorFrequency = "Occasional" := by
    norm_num [modelRun, segmentFrequency, sampleRunInput, npDrawsB]
  have h5 : (modelRun sampleRunInput npDrawsA 50).donorWeight = 7/10 := by
    norm_num [modelRun, segmentFrequency, frequencyWeight, sampleRunInput, npDrawsA]
  have h6 : (modelRun sampleRunInput npDrawsB 50).donorWeight = 1 := by
    norm_num [modelRun, segmentFrequency, frequencyWeight, sampleRunInput, npDrawsB]
    decide
  refine ⟨h1, h2, fun he => ?_, h3, h4, h5, h6, fun he => ?_⟩
  · rw [he, h2] at h1
    exact absurd h1 (by decide)
  · rw [he, h4] at h3
    exact absurd h3 (by decide)

/-- C3 (amended): the generator is a pure function of the seed-determined
stdlib draws and configuration, the numpy-RNG draws, and the wall-clock
date; with ALL of these fixed — not merely the seed and the configuration —
two runs of the modelled generator produce identical outputs. -/
theorem run_deterministic_given_rng_and_now (inp : RunInput) (np : NumpyDraws)
    (now : ℕ) (o1 o2 : RunOutput) (h1 : modelRun inp np now = o1)
    (h2 : modelRun inp np now = o2) : o1 = o2 :=
  h1.symm.trans h2

/-- Witness for `run_deterministic_given_rng_and_now` at the concrete sample
input. -/
theorem run_deterministic_given_rng_and_now_witness :
    modelRun sampleRunInput npDrawsA 50 = modelRun sampleRunInput npDrawsA 50 :=
  run_deterministic_given_rng_and_now sampleRunInput npDrawsA 50 _ _ rfl rfl

/-- C6 (counterexample): the Annual campaign running December 1, 2021 through
December 1, 2022 (a shape `generate_campaigns` produces) genuinely overlaps
November (all of November 2022 lies in its window) and has an eligible type,
yet `generate_appeals` injects no Giving Tuesday appeal for it: the
`includes_november` month heuristic (src/generate_data.py:592-593) is false
since the start month (12) is neither ≤ 11 nor greater than the end
month (12). -/
theorem gt_injection_counterexample :
    overlapsNovember novemberMissCampaign ∧
    novemberMissCampaign.ctype ∈ gtTypes ∧
    gtInjected novemberMissCampaign = false :=
  ⟨⟨2022, by decide, by decide⟩, by decide, by decide⟩

/-- C6 (amended): the Giving Tuesday appeal is injected exactly when the
code's `includes_november` month heuristic passes, the campaign type is
Annual/Special/Program, and November 30 of the anchor year (the end year
clamped to [2021, 2024]) lies inside the campaign window; when injected, its
window is fixed to November 23 through December 1 of that anchor year
(7 days before and 1 day after November 30), and injection does imply a
genuine November overlap (the converse fails, per the counterexample). -/
theorem gt_injection_characterization (c : Campaign) :
    (gtInjected c = true ↔
      (includesNovember c = true ∧ c.ctype ∈ gtTypes ∧
        c.startDate ≤ givingTuesdayDate (anchorYear c) ∧
        givingTuesdayDate (anchorYear c) ≤ c.endDate)) ∧
    gtAppealWindow c = (⟨anchorYear c, 11, 23⟩, ⟨anchorYear c, 12, 1⟩) ∧
    (gtInjected c = true → overlapsNovember c) := by
  have hiff : gtInjected c = true ↔
      (includesNovember c = true ∧ c.ctype ∈ gtTypes ∧
        c.startDate ≤ givingTuesdayDate (anchorYear c) ∧
        givingTuesdayDate (anchorYear c) ≤ c.endDate) := by
    simp only [gtInjected, Bool.and_eq_true, decide_eq_true_iff, List.elem_iff]
    constructor
    · rintro ⟨⟨hn, hc⟩, hd1, hd2⟩
      exact ⟨hn, hc, hd2, hd1⟩
    · rintro ⟨hn, hc, hd2, hd1⟩
      exact ⟨⟨hn, hc⟩, hd1, hd2⟩
  refine ⟨hiff, rfl, fun h => ?_⟩
  obtain ⟨_, _, hd2, hd1⟩ := hiff.mp h
  refine ⟨anchorYear c, hd2, ?_⟩
  show Dt.key ⟨anchorYear c, 11, 1⟩ ≤ c.endDate.key
  have : Dt.key (givingTuesdayDate (anchorYear c)) ≤ c.endDate.key := hd1
  unfold Dt.key givingTuesdayDate at *
  simp at *
  omega

/-- Witness for `gt_injection_characterization`: a campaign with window
January 1 through December 31, 2021 is injected, hence genuinely overlaps
November. -/
theorem gt_injection_characterization_witness :
    overlapsNovember gtHitCampaign :=
  (gt_injection_characterization gtHitCampaign).2.2 (by decide)

/-- C10: the seasonal anchor year is the campaign end year clamped into
[2021, 2024]; consequently a campaign lying entirely after December 31, 2024
gets neither a December appeal nor a Giving Tuesday appeal, whatever its
month profile and appeal-type pool, because the clamped anchor dates fall
before its window. -/
theorem seasonal_anchor_clamped (c : Campaign) (pool : List String)
    (hm : c.endDate.m ≤ 12) (hd : c.endDate.d ≤ 31)
    (hord : c.startDate ≤ c.endDate)
    (h : (⟨2024, 12, 31⟩ : Dt) < c.startDate) :
    anchorYear c = max (min c.endDate.y 2024) 2021 ∧
    decemberInjected pool c = false ∧ gtInjected c = false := by
  have hkey1 : (Dt.mk 2024 12 31).key < c.startDate.key := h
  have hkey2 : c.startDate.key ≤ c.endDate.key := hord
  have hy : 2025 ≤ c.endDate.y := by
    unfold Dt.key at hkey1 hkey2
    simp only at hkey1 hkey2
    omega
  have hay : anchorYear c = 2024 := by
    unfold anchorYear
    omega
  have hD : decide (c.startDate ≤ decemberEnd (anchorYear c)) = false := by
    rw [hay]
    apply decide_eq_false
    show ¬ c.startDate.key ≤ (decemberEnd 2024).key
    unfold Dt.key decemberEnd at *
    simp only at *
    omega
  have hG : decide (c.startDate ≤ givingTuesdayDate (anchorYear c)) = false := by
    rw [hay]
    apply decide_eq_false
    show ¬ c.startDate.key ≤ (givingTuesdayDate 2024).key
    unfold Dt.key givingTuesdayDate at *
    simp only at *
    omega
  refine ⟨rfl, ?_, ?_⟩
  · unfold decemberInjected
    rw [hD]
    simp
  · unfold gtInjected
    rw [hG]
    simp

/-- Witness for `seasonal_anchor_clamped`: the Special campaign October 1,
2025 through March 29, 2026 (whose window contains all of November and
December 2025) gets no seasonal appeal. -/
theorem seasonal_anchor_clamped_witness :
    decemberInjected ["Direct Mail"] postRangeCampaign = false ∧
    gtInjected postRangeCampaign = false := by
  have h := seasonal_anchor_clamped postRangeCampaign ["Direct Mail"]
    (by decide) (by decide) (by decide) (by decide)
  exact ⟨h.2.1, h.2.2⟩

theorem chooseFrom_mem (l : List ℕ) (k : ℕ) (h : l ≠ []) : chooseFrom l k ∈ l := by
  unfold chooseFrom
  have hl : 0 < l.length := List.length_pos.mpr h
  have hk : k % l.length < l.length := Nat.mod_lt _ hl
  rw [List.getD_eq_getElem l 0 hk]
  exact List.getElem_mem hk

theorem window_mem {a b : ℕ} {A : Finset ℕ} {j : ℕ} (h : j ∈ window a b A) :
    j ∉ A ∧ a ≤ j ∧ j < b := by
  unfold window at h
  rw [List.mem_filter] at h
  obtain ⟨h1, h2⟩ := h
  rw [List.mem_range'_1] at h1
  rw [decide_eq_true_iff] at h2
  exact ⟨h2, h1.1, by omega⟩

theorem windowGender_mem {a b : ℕ} {A : Finset ℕ} {g : ℕ → ℕ} {tg j : ℕ}
    (h : j ∈ windowGender a b A g tg) : j ∉ A ∧ a ≤ j ∧ j < b := by
  unfold windowGender at h
  rw [List.mem_filter] at h
  obtain ⟨h1, h2⟩ := h
  rw [List.mem_range'_1] at h1
  rw [Bool.and_eq_true, decide_eq_true_iff] at h2
  exact ⟨h2.1, h1.1, by omega⟩

theorem collectExtras_spec :
    ∀ (fuel idx need : ℕ) (A : Finset ℕ),
      (collectExtras idx need fuel A).2 = A ∪ (collectExtras idx need fuel A).1.toFinset ∧
      (collectExtras idx need fuel A).1.Nodup ∧
      ∀ x ∈ (collectExtras idx need fuel A).1, x ∉ A ∧ idx ≤ x ∧ x < idx + fuel := by
  intro fuel
  induction fuel with
  | zero =>
    intro idx need A
    simp [collectExtras]
  | succ f ih =>
    intro idx need A
    cases need with
    | zero => simp [collectExtras]
    | succ nd =>
      by_cases hmem : idx ∈ A
      · rw [show collectExtras idx (nd + 1) (f + 1) A
            = collectExtras (idx + 1) (nd + 1) f A from by
          rw [collectExtras]; rw [if_pos hmem]]
        obtain ⟨h1, h2, h3⟩ := ih (idx + 1) (nd + 1) A
        refine ⟨h1, h2, fun x hx => ?_⟩
        obtain ⟨ha, hb, hc⟩ := h3 x hx
        exact ⟨ha, by omega, by omega⟩
      · rw [show collectExtras idx (nd + 1) (f + 1) A
            = ((idx :: (collectExtras (idx + 1) nd f (insert idx A)).1,
                (collectExtras (idx + 1) nd f (insert idx A)).2) : List ℕ × Finset ℕ)
            from by rw [collectExtras]; rw [if_neg hmem]]
        obtain ⟨h1, h2, h3⟩ := ih (idx + 1) nd (insert idx A)
        refine ⟨?_, ?_, ?_⟩
        · rw [h1]
          ext y
          simp only [Finset.mem_union, Finset.mem_insert, List.toFinset_cons,
            List.mem_toFinset]
          tauto
        · refine List.nodup_cons.mpr ⟨fun hidx => ?_, h2⟩
          exact (h3 _ hidx).1 (Finset.mem_insert_self _ _)
        · intro x hx
          rcases List.mem_cons.mp hx with rfl | hx2
          · exact ⟨hmem, le_refl _, by omega⟩
          · obtain ⟨hx3, hx4, hx5⟩ := h3 x hx2
            exact ⟨fun hxA => hx3 (Finset.mem_insert_of_mem hxA), by omega, by omega⟩

theorem choosePartner_spec (o : HHOracle) (g : ℕ → ℕ) (n i : ℕ) (A : Finset ℕ)
    (pot : List ℕ) (hne : pot ≠ []) (hwin : pot = window (i + 1) (min (i + 10) n) A) :
    choosePartner o g n i A pot ∉ A ∧ i + 1 ≤ choosePartner o g n i A pot ∧
      choosePartner o g n i A pot < n := by
  subst hwin
  have hp0 := chooseFrom_mem _ (o.pick i) hne
  obtain ⟨ha0, hb0, hc0⟩ := window_mem hp0
  set pot := window (i + 1) (min (i + 10) n) A with hpot
  by_cases hss : (o.sameSex i && decide (g i ≠ g (chooseFrom pot (o.pick i)))) = true
  · by_cases hsg : (windowGender (i + 1) (min (i + 20) n) A g (g i)).isEmpty = true
    · have hcp : choosePartner o g n i A pot = chooseFrom pot (o.pick i) := by
        simp only [choosePartner]
        rw [if_pos hss, if_pos hsg]
      rw [hcp]
      exact ⟨ha0, hb0, by omega⟩
    · have hcp : choosePartner o g n i A pot
          = chooseFrom (windowGender (i + 1) (min (i + 20) n) A g (g i)) (o.pick2 i) := by
        simp only [choosePartner]
        rw [if_pos hss, if_neg hsg]
      have hsgne : windowGender (i + 1) (min (i + 20) n) A g (g i) ≠ [] := by
        intro hnil
        rw [hnil] at hsg
        simp at hsg
      have hp1 := chooseFrom_mem _ (o.pick2 i) hsgne
      obtain ⟨ha1, hb1, hc1⟩ := windowGender_mem hp1
      rw [hcp]
      exact ⟨ha1, hb1, by omega⟩
  · have hcp : choosePartner o g n i A pot = chooseFrom pot (o.pick i) := by
      simp only [choosePartner]
      rw [if_neg hss]
    rw [hcp]
    exact ⟨ha0, hb0, by omega⟩

theorem addHousehold_inv {n : ℕ} {s : HHState} (inv : HHInv n s) (h : List ℕ)
    (hnd : h.Nodup) (hne : h ≠ []) (hdisj : ∀ x ∈ h, x ∉ s.assigned)
    (hbnd : ∀ x ∈ h, x < n) :
    HHInv n ⟨s.assigned ∪ h.toFinset, s.households ++ [h]⟩ := by
  obtain ⟨i1, i2, i3, i4⟩ := inv
  have hfl : ((s.households ++ [h]).flatten : List ℕ) = s.households.flatten ++ h := by
    simp
  refine ⟨?_, ?_, ?_, ?_⟩
  · rw [hfl]
    refine List.Nodup.append i1 hnd ?_
    intro x hx1 hx2
    have : x ∈ s.assigned := by
      rw [← i2]
      exact List.mem_toFinset.mpr hx1
    exact hdisj x hx2 this
  · rw [hfl, List.toFinset_append, i2]
  · intro hmem
    rcases List.mem_append.mp hmem with hL | hR
    · exact i3 hL
    · simp at hR
      exact hne hR
  · intro x hx
    rw [hfl] at hx
    rcases List.mem_append.mp hx with hL | hR
    · exact i4 x hL
    · exact hbnd x hR

theorem singleHH_inv {n i : ℕ} {s : HHState} (inv : HHInv n s)
    (hi : i ∉ s.assigned) (hn : i < n) : HHInv n (singleHH i s) := by
  have h := addHousehold_inv inv [i] (by simp) (by simp)
    (by intro x hx; simp at hx; subst hx; exact hi)
    (by intro x hx; simp at hx; subst hx; exact hn)
  have he : singleHH i s = ⟨s.assigned ∪ [i].toFinset, s.households ++ [[i]]⟩ := by
    unfold singleHH
    congr 1
    simp [Finset.insert_eq, Finset.union_comm]
  rw [he]
  exact h

theorem pairHH_inv {o : HHOracle} {g : ℕ → ℕ} {n i : ℕ} {s : HHState}
    (inv : HHInv n s) (hi : i ∉ s.assigned) (hn : i < n)
    (hne : window (i + 1) (min (i + 10) n) s.assigned ≠ []) :
    HHInv n (pairHH o g n i s (window (i + 1) (min (i + 10) n) s.assigned)) := by
  obtain ⟨hpA, hpi, hpn⟩ :=
    choosePartner_spec o g n i s.assigned _ hne rfl
  set p := choosePartner o g n i s.assigned (window (i + 1) (min (i + 10) n) s.assigned)
    with hp
  set A1 := insert p (insert i s.assigned) with hA1
  set start := max i p + 1 with hstart
  obtain ⟨e1, e2, e3⟩ := collectExtras_spec (n - start) start (o.extras i % 4) A1
  set ms := (collectExtras start (o.extras i % 4) (n - start) A1).1 with hms
  have hstartn : start ≤ n := by omega
  have hmsA : ∀ x ∈ ms, x ∉ s.assigned ∧ x ≠ i ∧ x ≠ p ∧ x < n := by
    intro x hx
    obtain ⟨ha, hb, hc⟩ := e3 x hx
    have hxi : x ≠ i := fun hxe => ha (by rw [hxe]; exact Finset.mem_insert_of_mem (Finset.mem_insert_self _ _))
    have hxp : x ≠ p := fun hxe => ha (by rw [hxe]; exact Finset.mem_insert_self _ _)
    have hxA : x ∉ s.assigned := fun hxe =>
      ha (Finset.mem_insert_of_mem (Finset.mem_insert_of_mem hxe))
    exact ⟨hxA, hxi, hxp, by omega⟩
  have hh := addHousehold_inv inv (i :: p :: ms) ?hnd (by simp) ?hdisj ?hbnd
  case hnd =>
    refine List.nodup_cons.mpr ⟨?_, List.nodup_cons.mpr ⟨?_, e2⟩⟩
    · intro hmem
      rcases List.mem_cons.mp hmem with hip | hims
      · omega
      · exact (hmsA i hims).2.1 rfl
    · intro hmem
      exact (hmsA p hmem).2.2.1 rfl
  case hdisj =>
    intro x hx
    rcases List.mem_cons.mp hx with rfl | hx2
    · exact hi
    rcases List.mem_cons.mp hx2 with rfl | hx3
    · exact hpA
    · exact (hmsA x hx3).1
  case hbnd =>
    intro x hx
    rcases List.mem_cons.mp hx with rfl | hx2
    · exact hn
    rcases List.mem_cons.mp hx2 with rfl | hx3
    · exact hpn
    · exact (hmsA x hx3).2.2.2
  have hfst : (pairHH o g n i s (window (i + 1) (min (i + 10) n) s.assigned)).assigned
      = s.assigned ∪ (i :: p :: ms).toFinset := by
    show (collectExtras start (o.extras i % 4) (n - start) A1).2 = _
    rw [e1]
    ext y
    simp only [hA1, Finset.mem_union, Finset.mem_insert, List.toFinset_cons,
      List.mem_toFinset]
    tauto
  have hsnd : (pairHH o g n i s (window (i + 1) (min (i + 10) n) s.assigned)).households
      = s.households ++ [i :: p :: ms] := rfl
  have he : pairHH o g n i s (window (i + 1) (min (i + 10) n) s.assigned)
      = ⟨s.assigned ∪ (i :: p :: ms).toFinset, s.households ++ [i :: p :: ms]⟩ := by
    have heta : pairHH o g n i s (window (i + 1) (min (i + 10) n) s.assigned)
        = ⟨(pairHH o g n i s (window (i + 1) (min (i + 10) n) s.assigned)).assigned,
           (pairHH o g n i s (window (i + 1) (min (i + 10) n) s.assigned)).households⟩ := rfl
    rw [heta, hfst, hsnd]
  rw [he]
  exact hh

theorem hhStep_inv {o : HHOracle} {g : ℕ → ℕ} {n : ℕ} {s : HHState} {i : ℕ}
    (inv : HHInv n s) (hn : i < n) : HHInv n (hhStep o g n s i) := by
  unfold hhStep
  by_cases h1 : i ∈ s.assigned
  · rw [if_pos h1]
    exact inv
  · rw [if_neg h1]
    by_cases h2 : o.pair i
    · rw [if_pos h2]
      by_cases h3 : (window (i + 1) (min (i + 10) n) s.assigned).isEmpty
      · rw [if_pos h3]
        exact singleHH_inv inv h1 hn
      · rw [if_neg h3]
        refine pairHH_inv inv h1 hn ?_
        intro hnil
        rw [hnil] at h3
        simp at h3
    · rw [if_neg h2]
      exact singleHH_inv inv h1 hn

theorem foldl_hhStep_inv (o : HHOracle) (g : ℕ → ℕ) (n : ℕ) :
    ∀ (l : List ℕ) (s : HHState), (∀ i ∈ l, i < n) → HHInv n s →
      HHInv n (l.foldl (hhStep o g n) s) := by
  intro l
  induction l with
  | nil => intro s _ inv; exact inv
  | cons a l ih =>
    intro s hl inv
    exact ih _ (fun i hi => hl i (List.mem_cons_of_mem _ hi))
      (hhStep_inv inv (hl a (List.mem_cons_self _ _)))

theorem hhSweepStep_inv {n : ℕ} {s : HHState} {j : ℕ} (inv : HHInv n s)
    (hj : j < n) : HHInv n (hhSweepStep s j) := by
  unfold hhSweepStep
  by_cases h : j ∈ s.assigned
  · rw [if_pos h]
    exact inv
  · rw [if_neg h]
    exact singleHH_inv inv h hj

theorem foldl_sweep_inv (n : ℕ) :
    ∀ (l : List ℕ) (s : HHState), (∀ i ∈ l, i < n) → HHInv n s →
      HHInv n (l.foldl hhSweepStep s) := by
  intro l
  induction l with
  | nil => intro s _ inv; exact inv
  | cons a l ih =>
    intro s hl inv
    exact ih _ (fun i hi => hl i (List.mem_cons_of_mem _ hi))
      (hhSweepStep_inv inv (hl a (List.mem_cons_self _ _)))

theorem sweep_mono : ∀ (l : List ℕ) (s : HHState),
    s.assigned ⊆ (l.foldl hhSweepStep s).assigned := by
  intro l
  induction l with
  | nil => intro s; exact Finset.Subset.refl _
  | cons a l ih =>
    intro s
    refine Finset.Subset.trans ?_ (ih (hhSweepStep s a))
    unfold hhSweepStep
    by_cases h : a ∈ s.assigned
    · rw [if_pos h]
    · rw [if_neg h]
      unfold singleHH
      exact Finset.subset_insert _ _

theorem sweep_covers : ∀ (l : List ℕ) (s : HHState),
    ∀ j ∈ l, j ∈ (l.foldl hhSweepStep s).assigned := by
  intro l
  induction l with
  | nil => intro s j hj; cases hj
  | cons a l ih =>
    intro s j hj
    rcases List.mem_cons.mp hj with rfl | h2
    · refine sweep_mono l (hhSweepStep s j) ?_
      unfold hhSweepStep
      by_cases h : j ∈ s.assigned
      · rw [if_pos h]; exact h
      · rw [if_neg h]
        unfold singleHH
        exact Finset.mem_insert_self _ _
    · exact ih _ j h2

theorem range_toFinset (n : ℕ) : (List.range n).toFinset = Finset.range n := by
  ext x
  simp [List.mem_range, Finset.mem_range]

/-- C7: the membership rows emitted by `generate_households` are a partition
of the individual constituents, for every random behaviour, gender
assignment and individual count: the flattened member list is a permutation
of `0 .. n-1` (every individual in exactly one household, total membership
rows = individual count), no household is empty, and each index is counted
exactly once. -/
theorem households_partition (o : HHOracle) (g : ℕ → ℕ) (n : ℕ) :
    List.Perm (generateHouseholds o g n).households.flatten (List.range n) ∧
    [] ∉ (generateHouseholds o g n).households ∧
    (generateHouseholds o g n).households.flatten.length = n ∧
    ∀ j : ℕ, (generateHouseholds o g n).households.flatten.count j =
      if j < n then 1 else 0 := by
  have inv0 : HHInv n ⟨∅, []⟩ := by
    refine ⟨by simp, by simp, by simp, by simp⟩
  have inv1 : HHInv n (hhLoop o g n) :=
    foldl_hhStep_inv o g n (List.range n) _ (fun i hi => List.mem_range.mp hi) inv0
  have inv2 : HHInv n (generateHouseholds o g n) :=
    foldl_sweep_inv n (List.range n) _ (fun i hi => List.mem_range.mp hi) inv1
  obtain ⟨nd, tf, hne, bnd⟩ := inv2
  have cov : ∀ j, j < n → j ∈ (generateHouseholds o g n).assigned := by
    intro j hj
    exact sweep_covers (List.range n) (hhLoop o g n) j (List.mem_range.mpr hj)
  have heq : (generateHouseholds o g n).households.flatten.toFinset = Finset.range n := by
    rw [tf]
    apply Finset.Subset.antisymm
    · intro x hx
      rw [← tf, List.mem_toFinset] at hx
      exact Finset.mem_range.mpr (bnd x hx)
    · intro x hx
      exact cov x (Finset.mem_range.mp hx)
  have hperm : List.Perm (generateHouseholds o g n).households.flatten (List.range n) :=
    List.perm_of_nodup_nodup_toFinset_eq nd (List.nodup_range n)
      (by rw [heq, range_toFinset])
  refine ⟨hperm, hne, by rw [hperm.length_eq, List.length_range], ?_⟩
  intro j
  rw [hperm.count_eq j]
  by_cases hj : j < n
  · rw [if_pos hj]
    exact List.count_eq_one_of_mem (List.nodup_range n) (List.mem_range.mpr hj)
  · rw [if_neg hj]
    exact List.count_eq_zero.mpr (fun hmem => hj (List.mem_range.mp hmem))

end NPO
